import Mathlib

/-!
Verification of the spatial query federation and result-assembly engine of the
snad ZTF data-release API (source files `app.py`, `app/v1.py`, `app/v2.py`,
`app/v3.py`, `app/util.py`).

The Python source is shallowly embedded: SQL fetches become list filters and a
stable sort over explicit row structures, Python dicts become ordered
association lists with Python insertion semantics, raised HTTP errors become an
`Except` error type, and machine floats become exact rationals (the `%f`
formatting of query parameters, which rounds to six decimal places, is modelled
explicitly by `round6`).  The ClickHouse geo/H3 builtins (`geoToH3`, `h3kRing`,
`h3EdgeAngle`, `greatCircleAngle`) are external backend functions and are
abstracted as a structure of function parameters.
-/

/-- Error taxonomy of the spec, as raised by the source:
`HTTPBadRequest` ↦ `invalidQueryParameter`, the `HTTPNotFound` raised by
`_table_name_from_dr` ↦ `unknownRelease`, the explicitly raised
`HTTPInternalServerError` of the consistency guard ↦ `internalInconsistency`,
and an uncaught Python `KeyError` (the `FILTERS[...]` lookup on an unknown
passband code, or `metas[oid]` on a key the guard did not verify), which the
framework surfaces as an internal server error, ↦ `keyError`.  The
human-readable `reason` strings carried by the source exceptions are elided:
no claim inspects them. -/
inductive ApiError where
  | invalidQueryParameter
  | unknownRelease
  | internalInconsistency
  | keyError
  deriving DecidableEq

/-! ## Python dictionaries

Python dicts preserve insertion order; assignment to an existing key updates
the value in place, assignment to a fresh key appends.  We model a dict as an
association list with those semantics. -/

/-- Lookup `d[k]`, returning `none` when the key is absent. -/
def pyGet {α : Type} (d : List (ℤ × α)) (k : ℤ) : Option α :=
  (d.find? (fun p => p.1 = k)).map (·.2)

/-- Assignment `d[k] = v`: update in place if `k` is a key, else append. -/
def pyInsert {α : Type} (d : List (ℤ × α)) (k : ℤ) (v : α) : List (ℤ × α) :=
  if d.any (fun p => p.1 = k) then
    d.map (fun p => if p.1 = k then (p.1, v) else p)
  else
    d ++ [(k, v)]

/-- Equality of two id lists viewed as sets (Python `set(a) == set(b)`). -/
def eqAsSet (a b : List ℤ) : Bool :=
  a.all (fun x => b.contains x) && b.all (fun x => a.contains x)

/-- A Python `for` loop that builds a list, one result per iteration; an
exception raised in an iteration aborts the whole request. -/
def mapEntries {β γ : Type} (f : β → Except ApiError γ) :
    List β → Except ApiError (List γ)
  | [] => .ok []
  | x :: xs =>
    match f x with
    | .error e => .error e
    | .ok y =>
      match mapEntries f xs with
      | .error e => .error e
      | .ok ys => .ok (y :: ys)

/-- One iteration of a dict-building loop whose body may raise: compute the
value for key `p.1` with `F`; `none` models a raised `KeyError`, which becomes
the fault `e` of the whole request. -/
def entryStep {β γ : Type} (F : ℤ → β → Option γ) (e : ApiError)
    (p : ℤ × β) : Except ApiError (ℤ × γ) :=
  match F p.1 p.2 with
  | none => .error e
  | some v => .ok (p.1, v)

/-- A Python `for` loop threading an accumulator; an exception raised in an
iteration aborts the whole request. -/
def foldlE {σ β : Type} (step : σ → β → Except ApiError σ) (acc : σ) :
    List β → Except ApiError σ
  | [] => .ok acc
  | x :: xs =>
    match step acc x with
    | .error e => .error e
    | .ok next => foldlE step next xs

/-! ## Python `int(...)` parsing

`oid_to_int` (app/util.py) calls the Python builtin `int` on the query-string
value.  The builtin strips surrounding whitespace, accepts one optional sign,
then a nonempty digit string in which single underscores may separate digits.
Notably it accepts negative numbers.  Strings are modelled as `List Char`. -/

def pyIsWs (c : Char) : Bool :=
  c = ' ' || c = '\t' || c = '\n' || c = '\r'

def pyStripWs (l : List Char) : List Char :=
  ((l.dropWhile pyIsWs).reverse.dropWhile pyIsWs).reverse

def pyDigitsCore (acc : ℕ) : List Char → Option ℕ
  | [] => some acc
  | '_' :: c :: cs =>
    if c.isDigit then pyDigitsCore (10 * acc + (c.toNat - 48)) cs else none
  | ['_'] => none
  | c :: cs =>
    if c.isDigit then pyDigitsCore (10 * acc + (c.toNat - 48)) cs else none

def pyParseDigits : List Char → Option ℕ
  | [] => none
  | c :: cs => if c.isDigit then pyDigitsCore (c.toNat - 48) cs else none

/-- The Python builtin `int(s)` on a string, `none` when it raises `ValueError`. -/
def pyInt (l : List Char) : Option ℤ :=
  match pyStripWs l with
  | '+' :: rest => (pyParseDigits rest).map (fun n => (n : ℤ))
  | '-' :: rest => (pyParseDigits rest).map (fun n => -(n : ℤ))
  | rest => (pyParseDigits rest).map (fun n => (n : ℤ))

/-! ## v1: angular coordinate codec (`SPoint`/`SCircle` in app.py and app/v1.py)

`to_sql` writes `f'({self.ra_rad}, {self.dec_rad})'` and `from_sql` parses the
two numbers back and converts to degrees.  Numbers are modelled exactly as
rationals and the wire string as the pair of numbers it carries (Python float
`repr` round-trips the numeric payload exactly).  `m.radians(x) = x * (π/180)`
and `m.degrees(y) = y * (180/π)` share the constant π/180, modelled as a
parameter `c` (the model is exact for every nonzero conversion constant). -/

structure SPoint where
  ra : ℚ
  dec : ℚ
  deriving DecidableEq

def SPoint.ra_rad (c : ℚ) (p : SPoint) : ℚ := p.ra * c

def SPoint.dec_rad (c : ℚ) (p : SPoint) : ℚ := p.dec * c

/-- Encoder `SPoint.to_sql`: the wire encoding `"(ra_rad, dec_rad)"`, as its payload pair. -/
def SPoint.to_sql (c : ℚ) (p : SPoint) : ℚ × ℚ :=
  (p.ra_rad c, p.dec_rad c)

/-- Decoder `SPoint.from_sql`: strip the brackets, split at the comma, convert each
number back to degrees. -/
def SPoint.from_sql (c : ℚ) (w : ℚ × ℚ) : SPoint :=
  { ra := w.1 / c, dec := w.2 / c }

structure SCircle where
  point : SPoint
  radius : ℚ
  deriving DecidableEq

def SCircle.radius_rad (c : ℚ) (circle : SCircle) : ℚ :=
  circle.radius / 3600 * c

/-- Encoder `SCircle.to_sql`: the wire encoding `"<(ra, dec), radius>"`, as its payloads. -/
def SCircle.to_sql (c : ℚ) (circle : SCircle) : (ℚ × ℚ) × ℚ :=
  (circle.point.to_sql c, circle.radius_rad c)

/-! ## v1: analytic-backend predicate builder (`circle_oids` / `circle_full_json`)

The source builds `where = [(circle, 'coord @ ${i}::scircle'), (filters, ...),
(not_filters, ...), (fieldids, ...), (not_fieldids, ...)]` and then folds:
every pair whose value is truthy gets the next placeholder index and its value
is appended to the bound-parameter list.  An `SCircle` dataclass instance is
always truthy in Python; a list is truthy iff nonempty. -/

/-- A bound query parameter of the analytic backend. -/
inductive SqlValue where
  | circle (c : SCircle)
  | strings (l : List String)
  | ints (l : List ℤ)
  deriving DecidableEq

/-- Python truthiness of the values appearing in the `where` list. -/
def pyTruthy : SqlValue → Bool
  | .circle _ => true
  | .strings l => !l.isEmpty
  | .ints l => !l.isEmpty

/-- The five predicate templates, in the fixed source order. -/
inductive WhereTemplate where
  | circle
  | filterIn
  | filterNotIn
  | fieldidIn
  | fieldidNotIn
  deriving DecidableEq

/-- One emitted predicate: its template with the placeholder index substituted
for `{i}`. -/
structure WherePart where
  template : WhereTemplate
  placeholder : ℕ
  deriving DecidableEq

/-- The `where` list of `(value, template)` pairs, in source order. -/
def whereItems (circle : SCircle) (filters not_filters : List String)
    (fieldids not_fieldids : List ℤ) : List (SqlValue × WhereTemplate) :=
  [(.circle circle, .circle),
   (.strings filters, .filterIn),
   (.strings not_filters, .filterNotIn),
   (.ints fieldids, .fieldidIn),
   (.ints not_fieldids, .fieldidNotIn)]

/-- The fold of `circle_oids` / `circle_full_json`: `i = 0; for value, part in
where: if value: i += 1; where_parts.append(part.format(i=i));
values.append(value)`. -/
def buildWhere (items : List (SqlValue × WhereTemplate)) :
    List WherePart × List SqlValue :=
  (items.foldl
    (fun (st : ℕ × List WherePart × List SqlValue) vp =>
      if pyTruthy vp.1 then
        (st.1 + 1, st.2.1 ++ [⟨vp.2, st.1 + 1⟩], st.2.2 ++ [vp.1])
      else st)
    (0, [], [])).2

/-- The generated predicate list and bound parameter list of a v1 circle query. -/
def circleWhere (circle : SCircle) (filters not_filters : List String)
    (fieldids not_fieldids : List ℤ) : List WherePart × List SqlValue :=
  buildWhere (whereItems circle filters not_filters fieldids not_fieldids)

/-! ## app/util.py -/

/-- Conversion `oid_to_int`: Python `int(oid)`, raising `HTTPBadRequest` on `ValueError`. -/
def oid_to_int (oid : List Char) : Except ApiError ℤ :=
  match pyInt oid with
  | some n => .ok n
  | none => .error .invalidQueryParameter

/-- Parser `oids_from_request`: all `oid` query values; absence of the field
(`getall('oid', None) is None`, modelled as the empty list) is rejected, then
each value is converted by `oid_to_int`. -/
def oids_from_request (rawOids : List (List Char)) : Except ApiError (List ℤ) :=
  if rawOids.isEmpty then .error .invalidQueryParameter
  else rawOids.mapM oid_to_int

/-- Validator `ra_dec_radius_from_request`: the three mandatory floats of a region query
(here already parsed — the `KeyError`/`ValueError` paths for a missing or
non-float field are upstream of every claim) and the radius bound check. -/
def ra_dec_radius_from_request (ra dec radius max_radius : ℚ) :
    Except ApiError (ℚ × ℚ × ℚ) :=
  if radius ≤ 0 ∨ radius > max_radius then .error .invalidQueryParameter
  else .ok (ra, dec, radius)

/-- The inline copy of the radius bound check in `circle_full_json` of the
standalone app.py (`if radius <= 0 or radius > MAX_RADIUS: return Response(...)`). -/
def circle_radius_check_v1 (radius : ℚ) : Except ApiError Unit :=
  if radius ≤ 0 ∨ radius > 60 then .error .invalidQueryParameter
  else .ok ()

/-! ## Row and record types shared by the ClickHouse schema generations

The SQL `SELECT *` returns every column of the observation and meta tables;
the columns the engine reads are modelled, further columns would be dropped by
the projections and are irrelevant to every claim. -/

/-- One row of a ClickHouse observation table (`dr2`, `dr3`, ..., per-epoch). -/
structure ObsRow where
  oid : ℤ
  h3index10 : ℤ
  mjd : ℚ
  mag : ℚ
  magerr : ℚ
  clrcoeff : ℚ
  catflags : ℤ
  ra : ℚ
  dec : ℚ
  deriving DecidableEq

/-- One row of a ClickHouse meta (summary) table (`*_meta`, `*_meta_short`). -/
structure MetaRow where
  oid : ℤ
  nobs : ℤ
  ngoodobs : ℤ
  durgood : ℚ
  filter : ℤ
  fieldid : ℤ
  rcid : ℤ
  ra : ℚ
  dec : ℚ
  h3index10 : ℤ
  deriving DecidableEq

/-- The observation projection of v3: `LC_FIELDS = {'mjd', 'mag', 'magerr',
'clrcoeff'}` (`catflags` is dropped there, unlike v2). -/
structure LcObs where
  mjd : ℚ
  mag : ℚ
  magerr : ℚ
  clrcoeff : ℚ
  deriving DecidableEq

/-- Projection `{k: v for k, v in obs.items() if k in LC_FIELDS}` of v3. -/
def projLc (r : ObsRow) : LcObs :=
  { mjd := r.mjd, mag := r.mag, magerr := r.magerr, clrcoeff := r.clrcoeff }

/-- The ClickHouse database: rows of each table, addressed by table name. -/
structure ChDb where
  obs : String → List ObsRow
  meta : String → List MetaRow

/-- The H3/geo builtins of the ClickHouse backend, external to this repository,
abstracted as function parameters: `geoToH3(ra, dec, res)`, `h3kRing(cell, k)`,
`h3EdgeAngle(res)` and `greatCircleAngle(ra1, dec1, ra2, dec2)`. -/
structure H3Backend where
  geoToH3 : ℚ → ℚ → ℕ → ℤ
  h3kRing : ℤ → ℕ → List ℤ
  h3EdgeAngle : ℕ → ℚ
  greatCircleAngle : ℚ → ℚ → ℚ → ℚ → ℚ

/-- Python `f'{x:f}'` formatting, used for every float spliced into a v3/v2
query: it renders the value rounded to six decimal places, so the executed SQL
sees the rounded value.  (Ties, essentially impossible for the binary doubles
involved, are modelled as rounding up.) -/
def round6 (q : ℚ) : ℚ := (⌊q * 1000000 + 1 / 2⌋ : ℤ) / 1000000

/-! ## v3 (app/v3.py) -/

namespace v3

def MAX_RADIUS : ℚ := 60

/-- Table `FILTERS = {1: 'zg', 2: 'zr', 3: 'zi'}`; lookup of a key outside the table
raises `KeyError` in Python, modelled as `none`. -/
def FILTERS : ℤ → Option String
  | 1 => some "zg"
  | 2 => some "zr"
  | 3 => some "zi"
  | _ => none

def AVAILABLE_DRS : List String := ["dr2", "dr3", "dr4", "dr8", "latest"]

def SHORT_META_DRS : List String := ["dr2", "dr3"]

def LATEST_DR : String := "dr8"

/-- Resolver `_table_name_from_dr`: reject a release name outside `AVAILABLE_DRS` with
`HTTPNotFound` (the spec's `UnknownRelease`), then replace the alias
`'latest'` by `LATEST_DR`. -/
def _table_name_from_dr (dr : String) : Except ApiError String :=
  if dr ∉ AVAILABLE_DRS then .error .unknownRelease
  else if dr = "latest" then .ok LATEST_DR
  else .ok dr

def observation_table (dr : String) : Except ApiError String :=
  _table_name_from_dr dr

def meta_table (dr : String) : Except ApiError String :=
  match _table_name_from_dr dr with
  | .error e => .error e
  | .ok dr => .ok (dr ++ "_meta")

def meta_short_table (dr : String) : Except ApiError (Option String) :=
  match _table_name_from_dr dr with
  | .error e => .error e
  | .ok dr =>
    if dr ∉ SHORT_META_DRS then .ok none
    else .ok (some (dr ++ "_meta_short"))

/-- Fetch `get_meta_for_oids`: `SELECT * FROM {table} WHERE oid IN {oids} AND
ngoodobs > 0`, collected into the dict `{r['oid']: r for r in records}`. -/
def get_meta_for_oids (rows : List MetaRow) (oids : List ℤ) : List (ℤ × MetaRow) :=
  (rows.filter (fun r => oids.contains r.oid && decide (r.ngoodobs > 0))).foldl
    (fun d r => pyInsert d r.oid r) []

/-- The prepared summary record of v3 (`prepare_meta`): renamed/derived fields
of the long summary, plus the two short-window fields when a short summary row
is present. -/
structure Meta where
  nobs : ℤ
  ngoodobs : ℤ
  duration : ℚ
  filter : String
  fieldid : ℤ
  rcid : ℤ
  coordRa : ℚ
  coordDec : ℚ
  h3level10 : ℤ
  ngoodobs_short : Option ℤ
  duration_short : Option ℚ
  deriving DecidableEq

/-- Projection `prepare_meta`: the renamed/derived summary record.
`FILTERS[long['filter']]` raises `KeyError` for a passband code outside the
table — a fault, not a silent default — modelled as `none`; callers turn it
into the `keyError` server fault. -/
def prepare_meta (long : MetaRow) (short : Option MetaRow) : Option Meta :=
  match FILTERS long.filter with
  | none => none
  | some f =>
    some
      { nobs := long.nobs
        ngoodobs := long.ngoodobs
        duration := long.durgood
        filter := f
        fieldid := long.fieldid
        rcid := long.rcid
        coordRa := long.ra
        coordDec := long.dec
        h3level10 := long.h3index10
        ngoodobs_short := short.map (·.ngoodobs)
        duration_short := short.map (·.durgood) }

/-- One object of a v3 response: prepared summary plus projected light curve. -/
structure Obj where
  meta : Meta
  lc : List LcObs
  deriving DecidableEq

/-- Ordering `ORDER BY mjd` of the per-object observation query. -/
def mjdLe (a b : ObsRow) : Prop := a.mjd ≤ b.mjd

instance : DecidableRel mjdLe := fun a b => by unfold mjdLe; infer_instance

instance : IsTotal ObsRow mjdLe := ⟨fun a b => le_total a.mjd b.mjd⟩

instance : IsTrans ObsRow mjdLe := ⟨fun _ _ _ h h' => le_trans h h'⟩

/-- Ordering `ORDER BY h3index10, oid, mjd` of the region query. -/
def obsLex (a b : ObsRow) : Prop :=
  a.h3index10 < b.h3index10 ∨
    (a.h3index10 = b.h3index10 ∧
      (a.oid < b.oid ∨ (a.oid = b.oid ∧ a.mjd ≤ b.mjd)))

instance : DecidableRel obsLex := fun a b => by unfold obsLex; infer_instance

instance : IsTotal ObsRow obsLex := by
  constructor
  intro a b
  unfold obsLex
  rcases lt_trichotomy a.h3index10 b.h3index10 with h | h | h
  · exact Or.inl (Or.inl h)
  · rcases lt_trichotomy a.oid b.oid with h2 | h2 | h2
    · exact Or.inl (Or.inr ⟨h, Or.inl h2⟩)
    · rcases le_total a.mjd b.mjd with h3 | h3
      · exact Or.inl (Or.inr ⟨h, Or.inr ⟨h2, h3⟩⟩)
      · exact Or.inr (Or.inr ⟨h.symm, Or.inr ⟨h2.symm, h3⟩⟩)
    · exact Or.inr (Or.inr ⟨h.symm, Or.inl h2⟩)
  · exact Or.inr (Or.inl h)

instance : IsTrans ObsRow obsLex := by
  constructor
  intro a b c hab hbc
  unfold obsLex at *
  rcases hab with h1 | ⟨e1, h1⟩
  · rcases hbc with h2 | ⟨e2, _⟩
    · exact Or.inl (h1.trans h2)
    · exact Or.inl (e2 ▸ h1)
  · rcases hbc with h2 | ⟨e2, h2⟩
    · exact Or.inl (e1 ▸ h2)
    · refine Or.inr ⟨e1.trans e2, ?_⟩
      rcases h1 with h1 | ⟨f1, h1⟩
      · rcases h2 with h2 | ⟨f2, _⟩
        · exact Or.inl (h1.trans h2)
        · exact Or.inl (f2 ▸ h1)
      · rcases h2 with h2 | ⟨f2, h2⟩
        · exact Or.inl (f1 ▸ h2)
        · exact Or.inr ⟨f1.trans f2, h1.trans h2⟩

/-- Fetch `get_lc_for_oid_h3index10`: `SELECT * FROM {table} WHERE h3index10 = {h3}
AND oid = {oid} AND catflags = 0 AND magerr > 0 ORDER BY mjd`.  `rows` are the
rows of the (already resolved) observation table. -/
def get_lc_for_oid_h3index10 (rows : List ObsRow) (oid h3index10 : ℤ) :
    List ObsRow :=
  (rows.filter (fun r =>
    r.h3index10 = h3index10 && r.oid = oid && r.catflags = 0
      && decide (r.magerr > 0))).insertionSort mjdLe

/-- The `toUInt8(radius_deg / h3EdgeAngle(10)) + 1` ring radius of the region
query: ClickHouse `toUInt8` truncates its (here nonnegative and tiny) float
argument toward zero. -/
def ringRadius (radius_deg edgeAngle : ℚ) : ℕ :=
  (⌊radius_deg / edgeAngle⌋).toNat + 1

/-- Fetch `get_lcs_in_circle`: the coarse-then-refine region query over the
observation table.  All float parameters are spliced with `:f` and hence
rounded by `round6`. -/
def get_lcs_in_circle (h3 : H3Backend) (rows : List ObsRow)
    (ra dec radius_arcsec : ℚ) : List ObsRow :=
  let radius_deg := radius_arcsec / 3600
  let cells := h3.h3kRing (h3.geoToH3 (round6 ra) (round6 dec) 10)
    (ringRadius (round6 radius_deg) (h3.h3EdgeAngle 10))
  (rows.filter (fun r =>
    cells.contains r.h3index10
      && decide (h3.greatCircleAngle (round6 ra) (round6 dec) r.ra r.dec
          < round6 radius_deg)
      && r.catflags = 0 && decide (r.magerr > 0))).insertionSort obsLex

/-- Modelled from the spec: the coarse-then-refine region query as §4.3 words
it, with the ring radius `ceil(radius / cell_edge_angle) + 1` (the spec's
radians cancel against a radian-valued edge function exactly as the source's
degrees cancel against `h3EdgeAngle`'s degrees) and no 6-decimal parameter
rounding.  It exists only to be compared with `get_lcs_in_circle`. -/
def get_lcs_in_circle_spec (h3 : H3Backend) (rows : List ObsRow)
    (ra dec radius_arcsec : ℚ) : List ObsRow :=
  let radius_deg := radius_arcsec / 3600
  let cells := h3.h3kRing (h3.geoToH3 ra dec 10)
    ((⌈radius_deg / h3.h3EdgeAngle 10⌉).toNat + 1)
  (rows.filter (fun r =>
    cells.contains r.h3index10
      && decide (h3.greatCircleAngle ra dec r.ra r.dec < radius_deg)
      && r.catflags = 0 && decide (r.magerr > 0))).insertionSort obsLex

end v3

namespace v3

/-- The body of one iteration of the `for oid, meta in metas.items()` loop:
assemble the object of identifier `k` with summary row `m`, short-summary dict
`metasShort`, and the light curve fetched for `(k, m.h3index10)`; `none` when
`prepare_meta` raises `KeyError`. -/
def oidEntry (db : ChDb) (t : String) (metasShort : List (ℤ × MetaRow))
    (k : ℤ) (m : MetaRow) : Option Obj :=
  (prepare_meta m (pyGet metasShort k)).map (fun fm =>
    { meta := fm
      lc := (get_lc_for_oid_h3index10 (db.obs t) k m.h3index10).map projLc })

/-- The body of `data_dr_oid_full_json` after oid parsing and release
resolution: `t` is the resolved release (so the observation table is `t`, the
long summary table `t ++ "_meta"`, and the short summary table exists iff
`t ∈ SHORT_META_DRS`).  The loop `for oid, meta in metas.items(): data[oid] =
...` assigns each dict key exactly once (dict keys are unique), i.e. it maps
over the entries of `metas`; the first `KeyError` raised by `prepare_meta`
aborts the whole request with the server fault — no partial mapping. -/
def oidCore (db : ChDb) (t : String) (oids : List ℤ) :
    Except ApiError (List (ℤ × Obj)) :=
  let metas := get_meta_for_oids (db.meta (t ++ "_meta")) oids
  let metasShort :=
    if t ∈ SHORT_META_DRS then
      get_meta_for_oids (db.meta (t ++ "_meta_short")) oids
    else []
  mapEntries (entryStep (oidEntry db t metasShort) .keyError) metas

/-- Endpoint `GET /api/v3/data/{dr}/oid/full/json`: parse the oids, resolve the
release, fetch and join. -/
def data_dr_oid_full_json (db : ChDb) (dr : String)
    (rawOids : List (List Char)) : Except ApiError (List (ℤ × Obj)) :=
  match oids_from_request rawOids with
  | .error e => .error e
  | .ok oids =>
    match _table_name_from_dr dr with
    | .error e => .error e
    | .ok t => oidCore db t oids

/-- One step of the region-query grouping loop: `obj = data.setdefault(oid,
dict(meta=prepare_meta(...)))`; `obj.setdefault('lc', []).append(projected
obs)`.  Python evaluates the `setdefault` default eagerly, so the
`prepare_meta` / `metas[oid]` `KeyError` (modelled as `mk obs.oid = none`)
aborts the request on every iteration it can occur, present key or not. -/
def addObs (mk : ℤ → Option Meta) (data : List (ℤ × Obj)) (obs : ObsRow) :
    Except ApiError (List (ℤ × Obj)) :=
  match mk obs.oid with
  | none => .error .keyError
  | some meta =>
    match pyGet data obs.oid with
    | some _ =>
      .ok (data.map (fun p =>
        if p.1 = obs.oid then (p.1, { p.2 with lc := p.2.lc ++ [projLc obs] })
        else p))
    | none => .ok (data ++ [(obs.oid, { meta := meta, lc := [projLc obs] })])

/-- The body of `data_dr_circle_full_json` after radius validation and release
resolution (`t` the resolved release): region fetch, emptiness shortcut,
consistency guard, short-summary enrichment, and the grouping loop. -/
def circleCore (h3 : H3Backend) (db : ChDb) (t : String)
    (ra dec radius : ℚ) : Except ApiError (List (ℤ × Obj)) :=
  let lcs := get_lcs_in_circle h3 (db.obs t) ra dec radius
  if lcs.isEmpty then .ok []
  else
    let oids := (lcs.map (·.oid)).dedup
    let metas := get_meta_for_oids (db.meta (t ++ "_meta")) oids
    if !eqAsSet oids (metas.map (·.1)) then .error .internalInconsistency
    else
      let metasShort :=
        if t ∈ SHORT_META_DRS then
          get_meta_for_oids (db.meta (t ++ "_meta_short")) oids
        else []
      foldlE
        (addObs (fun o =>
          match pyGet metas o with
          | none => none
          | some long => prepare_meta long (pyGet metasShort o)))
        [] lcs

/-- Endpoint `GET /api/v3/data/{dr}/circle/full/json`: validate the radius (before any
backend access), resolve the release (inside `get_lcs_in_circle`, via
`observation_table`), then run the region pipeline. -/
def data_dr_circle_full_json (h3 : H3Backend) (db : ChDb) (dr : String)
    (ra dec radius : ℚ) : Except ApiError (List (ℤ × Obj)) :=
  match ra_dec_radius_from_request ra dec radius MAX_RADIUS with
  | .error e => .error e
  | .ok (ra, dec, radius) =>
    match observation_table dr with
    | .error e => .error e
    | .ok t => circleCore h3 db t ra dec radius

end v3

/-! ## v2 (app/v2.py): single release `dr2`; its `LC_FIELDS` keeps `catflags`. -/

namespace v2

/-- The v2 observation projection: `LC_FIELDS = {'mjd', 'mag', 'magerr',
'clrcoeff', 'catflags'}`. -/
structure LcObsV2 where
  mjd : ℚ
  mag : ℚ
  magerr : ℚ
  clrcoeff : ℚ
  catflags : ℤ
  deriving DecidableEq

def projLcV2 (r : ObsRow) : LcObsV2 :=
  { mjd := r.mjd, mag := r.mag, magerr := r.magerr, clrcoeff := r.clrcoeff
    catflags := r.catflags }

/-- v2 `get_meta_for_oids`: `SELECT * FROM dr2_meta WHERE oid IN {oids}` — a
plain row list, with no `ngoodobs` condition and no dict. -/
def get_meta_for_oids (rows : List MetaRow) (oids : List ℤ) : List MetaRow :=
  rows.filter (fun r => oids.contains r.oid)

/-- v2 `get_lc_for_oid_h3index10`: `SELECT * FROM dr2 WHERE h3index10 = {h3}
AND oid = {oid} AND catflags = 0 ORDER BY mjd` (no `magerr` condition in v2). -/
def get_lc_for_oid_h3index10 (rows : List ObsRow) (oid h3index10 : ℤ) :
    List ObsRow :=
  (rows.filter (fun r =>
    r.h3index10 = h3index10 && r.oid = oid && r.catflags = 0)).insertionSort
    v3.mjdLe

structure ObjV2 where
  nobs : ℤ
  lc : List LcObsV2
  deriving DecidableEq

/-- Endpoint `GET /api/v2/oid/full/json` (modulo the summary projection, elided down to
one representative field: only the light curve is relevant to a claim): the
validation loop over the raw oids, then the per-meta join.  `dr2` is the only
v2 release; `obsRows`/`metaRows` are the `dr2` and `dr2_meta` tables. -/
def oid_full_json (obsRows : List ObsRow) (metaRows : List MetaRow)
    (rawOids : List (List Char)) : Except ApiError (List (ℤ × ObjV2)) :=
  if rawOids.isEmpty then .error .invalidQueryParameter
  else
    match rawOids.mapM oid_to_int with
    | .error e => .error e
    | .ok oids =>
      .ok ((get_meta_for_oids metaRows oids).foldl
        (fun data meta =>
          pyInsert data meta.oid
            { nobs := meta.nobs
              lc := (get_lc_for_oid_h3index10 obsRows meta.oid
                meta.h3index10).map projLcV2 })
        [])

end v2

/-! ## v1 (app.py / app/v1.py): the Postgres by-identifier path. -/

namespace v1

/-- One row of `dr1_meta INNER JOIN dr1_info USING(oid)`; the summary columns
other than the key are abstracted into one payload field (no claim inspects
them). -/
structure Dr1MetaRow where
  oid : ℤ
  payload : ℤ
  deriving DecidableEq

/-- One row of `dr1_good_lc`. -/
structure Dr1LcRow where
  oid : ℤ
  mjd : ℚ
  mag : ℚ
  deriving DecidableEq

structure PgDb where
  metaRows : List Dr1MetaRow
  lcRows : List Dr1LcRow

/-- Fetch `get_meta_for_oid`: `fetchrow` of the join — the first matching row, or
`None`. -/
def get_meta_for_oid (db : PgDb) (oid : ℤ) : Option Dr1MetaRow :=
  db.metaRows.find? (fun r => r.oid = oid)

def lcMjdLe (a b : Dr1LcRow) : Prop := a.mjd ≤ b.mjd

instance : DecidableRel lcMjdLe := fun a b => by unfold lcMjdLe; infer_instance

instance : IsTotal Dr1LcRow lcMjdLe := ⟨fun a b => le_total a.mjd b.mjd⟩

instance : IsTrans Dr1LcRow lcMjdLe := ⟨fun _ _ _ h h' => le_trans h h'⟩

/-- Fetch `get_lc_for_oid`: `SELECT * FROM dr1_good_lc WHERE oid = $1 ORDER BY mjd`
(the popping of the `oid` column from each returned row is elided). -/
def get_lc_for_oid (db : PgDb) (oid : ℤ) : List Dr1LcRow :=
  (db.lcRows.filter (fun r => r.oid = oid)).insertionSort lcMjdLe

structure ObjV1 where
  meta : Dr1MetaRow
  lc : List Dr1LcRow
  deriving DecidableEq

/-- One iteration of the `oid_full_json` loop: skip (`continue`) when the
summary fetch returns `None`, else attach summary and light curve. -/
def oidStep (db : PgDb) (data : List (ℤ × ObjV1)) (oid : ℤ) :
    List (ℤ × ObjV1) :=
  match get_meta_for_oid db oid with
  | none => data
  | some meta => pyInsert data oid { meta := meta, lc := get_lc_for_oid db oid }

/-- The response-building loop of `oid_full_json` on already-parsed oids:
identifiers whose summary fetch returns `None` are skipped. -/
def oidCore (db : PgDb) (oids : List ℤ) : List (ℤ × ObjV1) :=
  oids.foldl (oidStep db) []

/-- Endpoint `GET /api/v1/oid/full/json` of app/v1.py: parse all oids (util's
`oids_from_request`), then loop. -/
def oid_full_json (db : PgDb) (rawOids : List (List Char)) :
    Except ApiError (List (ℤ × ObjV1)) :=
  match oids_from_request rawOids with
  | .error e => .error e
  | .ok oids => .ok (oidCore db oids)

end v1

/-! ## Helper lemmas about the Python dict model -/

theorem pyGet_nil {α : Type} (k : ℤ) : pyGet ([] : List (ℤ × α)) k = none := rfl

theorem pyGet_cons_pos {α : Type} (p : ℤ × α) (d : List (ℤ × α)) (k : ℤ)
    (h : p.1 = k) : pyGet (p :: d) k = some p.2 := by
  unfold pyGet
  rw [List.find?_cons_of_pos _ (by simp [h])]
  rfl

theorem pyGet_cons_neg {α : Type} (p : ℤ × α) (d : List (ℤ × α)) (k : ℤ)
    (h : ¬ p.1 = k) : pyGet (p :: d) k = pyGet d k := by
  unfold pyGet
  rw [List.find?_cons_of_neg _ (by simp [h])]

theorem pyGet_append {α : Type} (d₁ d₂ : List (ℤ × α)) (k : ℤ) :
    pyGet (d₁ ++ d₂) k = (pyGet d₁ k).or (pyGet d₂ k) := by
  unfold pyGet
  rw [List.find?_append]
  cases List.find? (fun p => p.1 = k) d₁ <;> simp

theorem pyGet_singleton {α : Type} (k k' : ℤ) (v : α) :
    pyGet [(k, v)] k' = if k' = k then some v else none := by
  by_cases h : k' = k
  · subst h
    rw [pyGet_cons_pos _ _ _ rfl, if_pos rfl]
  · rw [pyGet_cons_neg _ _ _ (by omega), if_neg h, pyGet_nil]

theorem pyGet_map_update {α : Type} (d : List (ℤ × α)) (a : ℤ) (f : α → α)
    (k : ℤ) :
    pyGet (d.map (fun p => if p.1 = a then (p.1, f p.2) else p)) k =
      if k = a then (pyGet d k).map f else pyGet d k := by
  induction d with
  | nil => by_cases h : k = a <;> simp [pyGet, h]
  | cons p d ih =>
    rw [List.map_cons]
    by_cases hpa : p.1 = a
    · rw [if_pos hpa]
      by_cases hpk : p.1 = k
      · have hka : k = a := by omega
        rw [pyGet_cons_pos (p.1, f p.2) _ k hpk, pyGet_cons_pos p _ k hpk,
          if_pos hka]
        rfl
      · have hka : ¬ k = a := by omega
        rw [pyGet_cons_neg (p.1, f p.2) _ k hpk, pyGet_cons_neg p _ k hpk, ih,
          if_neg hka]
    · rw [if_neg hpa]
      by_cases hpk : p.1 = k
      · have hka : ¬ k = a := by omega
        rw [pyGet_cons_pos _ _ _ hpk, pyGet_cons_pos _ _ _ hpk, if_neg hka]
      · rw [pyGet_cons_neg _ _ _ hpk, pyGet_cons_neg _ _ _ hpk, ih]

theorem any_eq_isSome_pyGet {α : Type} (d : List (ℤ × α)) (k : ℤ) :
    d.any (fun p => p.1 = k) = (pyGet d k).isSome := by
  induction d with
  | nil => simp [pyGet]
  | cons p d ih =>
    by_cases hp : p.1 = k
    · rw [pyGet_cons_pos _ _ _ hp]
      simp [List.any_cons, hp]
    · rw [pyGet_cons_neg _ _ _ hp]
      simp [List.any_cons, hp, ih]

theorem pyGet_pyInsert {α : Type} (d : List (ℤ × α)) (k : ℤ) (v : α) (k' : ℤ) :
    pyGet (pyInsert d k v) k' = if k' = k then some v else pyGet d k' := by
  unfold pyInsert
  by_cases h : d.any (fun p => p.1 = k)
  · rw [if_pos h, pyGet_map_update d k (fun _ => v) k']
    by_cases hk : k' = k
    · subst hk
      rw [any_eq_isSome_pyGet] at h
      rw [if_pos rfl, if_pos rfl]
      cases hg : pyGet d k' with
      | none => rw [hg] at h; simp at h
      | some o => simp
    · rw [if_neg hk, if_neg hk]
  · rw [if_neg h, pyGet_append, pyGet_singleton]
    by_cases hk : k' = k
    · subst hk
      rw [any_eq_isSome_pyGet] at h
      cases hg : pyGet d k' with
      | none => simp [hg]
      | some o => rw [hg] at h; simp at h
    · rw [if_neg hk, if_neg hk]
      cases pyGet d k' <;> simp

theorem pyGet_mapValues {α β : Type} (d : List (ℤ × α)) (F : ℤ → α → β)
    (k : ℤ) :
    pyGet (d.map (fun p => (p.1, F p.1 p.2))) k = (pyGet d k).map (F k) := by
  induction d with
  | nil => simp [pyGet]
  | cons p d ih =>
    rw [List.map_cons]
    by_cases hp : p.1 = k
    · rw [pyGet_cons_pos (p.1, F p.1 p.2) _ k hp, pyGet_cons_pos p _ k hp]
      simp [hp]
    · rw [pyGet_cons_neg (p.1, F p.1 p.2) _ k hp, pyGet_cons_neg p _ k hp, ih]

/-- Lookups at a key other than `o` in a dict built by repeated `pyInsert` of
rows keyed by `key` are unaffected by dropping all rows keyed `o`. -/
theorem pyGet_foldl_pyInsert_agree {α : Type} (key : α → ℤ) (o : ℤ) :
    ∀ (rows : List α) (acc₁ acc₂ : List (ℤ × α)),
      (∀ k, k ≠ o → pyGet acc₁ k = pyGet acc₂ k) →
      ∀ k, k ≠ o →
        pyGet ((rows.filter (fun r => key r ≠ o)).foldl
          (fun d r => pyInsert d (key r) r) acc₁) k =
        pyGet (rows.foldl (fun d r => pyInsert d (key r) r) acc₂) k := by
  intro rows
  induction rows with
  | nil =>
    intro acc₁ acc₂ h k hk
    simpa using h k hk
  | cons r rows ih =>
    intro acc₁ acc₂ h k hk
    rw [List.filter_cons]
    by_cases hr : key r = o
    · rw [if_neg (by simp [hr]), List.foldl_cons]
      apply ih _ _ _ k hk
      intro k' hk'
      rw [pyGet_pyInsert, if_neg (by omega : ¬ k' = key r)]
      exact h k' hk'
    · rw [if_pos (by simp [hr]), List.foldl_cons, List.foldl_cons]
      apply ih _ _ _ k hk
      intro k' hk'
      rw [pyGet_pyInsert, pyGet_pyInsert]
      by_cases hkr : k' = key r
      · rw [if_pos hkr, if_pos hkr]
      · rw [if_neg hkr, if_neg hkr]
        exact h k' hk'

/-- A key no inserted row carries is absent from a `pyInsert`-built dict. -/
theorem pyGet_foldl_pyInsert_none {α : Type} (key : α → ℤ) (o : ℤ) :
    ∀ (rows : List α) (acc : List (ℤ × α)),
      (∀ r ∈ rows, key r ≠ o) → pyGet acc o = none →
      pyGet (rows.foldl (fun d r => pyInsert d (key r) r) acc) o = none := by
  intro rows
  induction rows with
  | nil =>
    intro acc _ hacc
    simpa using hacc
  | cons r rows ih =>
    intro acc hrows hacc
    rw [List.foldl_cons]
    apply ih _ (fun r hr => hrows r (List.mem_cons_of_mem _ hr))
    rw [pyGet_pyInsert, if_neg (by have := hrows r (List.mem_cons_self r rows); omega)]
    exact hacc

namespace v3

theorem pyGet_addObs_ok (mk : ℤ → Option Meta) (data : List (ℤ × Obj))
    (r : ObsRow) (acc' : List (ℤ × Obj)) (h : addObs mk data r = .ok acc')
    (o : ℤ) :
    pyGet acc' o =
      if r.oid = o then
        match pyGet data o with
        | some obj => some { obj with lc := obj.lc ++ [projLc r] }
        | none => (mk r.oid).map (fun m => { meta := m, lc := [projLc r] })
      else pyGet data o := by
  unfold addObs at h
  cases hmk : mk r.oid with
  | none =>
    simp only [hmk] at h
    exact absurd h (by simp)
  | some meta =>
    simp only [hmk] at h
    cases hg : pyGet data r.oid with
    | some obj =>
      simp only [hg] at h
      have hacc := (Except.ok.injEq _ _).mp h
      rw [← hacc]
      rw [pyGet_map_update data r.oid
        (fun obj => { obj with lc := obj.lc ++ [projLc r] }) o]
      by_cases ho : r.oid = o
      · subst ho
        rw [if_pos rfl, if_pos rfl, hg]
        rfl
      · rw [if_neg (by omega : ¬ o = r.oid), if_neg ho]
    | none =>
      simp only [hg] at h
      have hacc := (Except.ok.injEq _ _).mp h
      rw [← hacc]
      rw [pyGet_append, pyGet_singleton]
      by_cases ho : r.oid = o
      · subst ho
        rw [hg]
        simp
      · rw [if_neg (by omega : ¬ o = r.oid), if_neg ho]
        cases pyGet data o <;> rfl

theorem mk_some_of_addObs_ok (mk : ℤ → Option Meta) (data : List (ℤ × Obj))
    (r : ObsRow) (acc' : List (ℤ × Obj)) (h : addObs mk data r = .ok acc') :
    ∃ m, mk r.oid = some m := by
  unfold addObs at h
  cases hmk : mk r.oid with
  | none =>
    simp only [hmk] at h
    exact absurd h (by simp)
  | some m => exact ⟨m, rfl⟩

theorem pyGet_foldlE_addObs (mk : ℤ → Option Meta) :
    ∀ (l : List ObsRow) (acc data : List (ℤ × Obj)),
      foldlE (addObs mk) acc l = .ok data →
      ∀ (o : ℤ),
      pyGet data o =
        match pyGet acc o with
        | some obj =>
          some { obj with
            lc := obj.lc ++ (l.filter (fun r => r.oid = o)).map projLc }
        | none =>
          if (l.filter (fun r => r.oid = o)).isEmpty then none
          else (mk o).map (fun m =>
            { meta := m, lc := (l.filter (fun r => r.oid = o)).map projLc }) := by
  intro l
  induction l with
  | nil =>
    intro acc data h o
    have hacc : acc = data := (Except.ok.injEq _ _).mp h
    subst hacc
    cases hg : pyGet acc o <;> simp [hg]
  | cons r l ih =>
    intro acc data h o
    simp only [foldlE] at h
    cases ha : addObs mk acc r with
    | error e =>
      simp only [ha] at h
      exact absurd h (by simp)
    | ok acc' =>
      simp only [ha] at h
      obtain ⟨mr, hmr⟩ := mk_some_of_addObs_ok mk acc r acc' ha
      rw [ih acc' data h o, pyGet_addObs_ok mk acc r acc' ha o,
        List.filter_cons]
      by_cases ho : r.oid = o
      · subst ho
        cases hg : pyGet acc r.oid with
        | some obj => simp [hg, List.append_assoc]
        | none => simp [hg, hmr]
      · simp [ho]

/-- Within a list that is pairwise ordered by `(h3index10, oid, mjd)` and in
which rows of one object share one cell, the rows of each single object are
pairwise ordered by `mjd`. -/
theorem pairwise_mjd_of_filter_oid (lcs : List ObsRow) (o : ℤ)
    (hs : List.Pairwise obsLex lcs)
    (hU : ∀ a ∈ lcs, ∀ b ∈ lcs, a.oid = b.oid → a.h3index10 = b.h3index10) :
    List.Pairwise (fun a b : ObsRow => a.mjd ≤ b.mjd)
      (lcs.filter (fun r => r.oid = o)) := by
  have hsub : List.Pairwise obsLex (lcs.filter (fun r => r.oid = o)) :=
    List.Pairwise.sublist (List.filter_sublist lcs) hs
  refine List.Pairwise.imp_of_mem ?_ hsub
  intro a b ha hb hab
  have ha' := List.mem_filter.mp ha
  have hb' := List.mem_filter.mp hb
  have hoid : a.oid = b.oid := by
    have h1 : a.oid = o := by simpa using ha'.2
    have h2 : b.oid = o := by simpa using hb'.2
    omega
  have hh3 := hU a ha'.1 b hb'.1 hoid
  rcases hab with h | ⟨_, h | ⟨_, h⟩⟩
  · omega
  · omega
  · exact h

end v3

/-! ## Claim theorems -/

/-- C4: for every valid decimal-degree pair `p = (ra, dec)`, decoding the wire
encoding of the point — degrees converted to radians, written to the wire,
parsed back, and converted to degrees — reproduces the original `ra` and `dec`
within `1e-9` degrees (in the exact-arithmetic model the round trip is exact,
for every nonzero conversion constant). -/
theorem claim_C4_wire_roundtrip (c : ℚ) (hc : c ≠ 0) (p : SPoint) :
    SPoint.from_sql c (SPoint.to_sql c p) = p ∧
      |(SPoint.from_sql c (SPoint.to_sql c p)).ra - p.ra| ≤ 1 / 1000000000 ∧
      |(SPoint.from_sql c (SPoint.to_sql c p)).dec - p.dec| ≤ 1 / 1000000000 := by
  have h : SPoint.from_sql c (SPoint.to_sql c p) = p := by
    unfold SPoint.from_sql SPoint.to_sql SPoint.ra_rad SPoint.dec_rad
    cases p with
    | mk ra dec =>
      simp only [SPoint.mk.injEq]
      constructor <;> field_simp
  refine ⟨h, ?_, ?_⟩ <;> rw [h] <;> simp

theorem claim_C4_wire_roundtrip_witness :
    SPoint.from_sql (314159 / 18000000)
      (SPoint.to_sql (314159 / 18000000) ⟨10, 30⟩) = ⟨10, 30⟩ :=
  (claim_C4_wire_roundtrip (314159 / 18000000) (by norm_num) ⟨10, 30⟩).1

/-- C8: a release name outside the configured catalogue fails with
`UnknownRelease` in `_table_name_from_dr`, before any table name is derived
(so every table-name lookup propagates the same failure), and the alias
`"latest"` resolves to the concrete release `dr8`, so each of the three
table-name lookups for `"latest"` yields exactly the `dr8` tables. -/
theorem claim_C8_release_resolution (dr : String)
    (h : dr ∉ v3.AVAILABLE_DRS) :
    v3._table_name_from_dr dr = .error .unknownRelease ∧
      v3.observation_table dr = .error .unknownRelease ∧
      v3.meta_table dr = .error .unknownRelease ∧
      v3.meta_short_table dr = .error .unknownRelease ∧
      v3._table_name_from_dr "latest" = .ok "dr8" ∧
      v3.observation_table "latest" = v3.observation_table "dr8" ∧
      v3.meta_table "latest" = v3.meta_table "dr8" ∧
      v3.meta_short_table "latest" = v3.meta_short_table "dr8" ∧
      v3.observation_table "latest" = .ok "dr8" ∧
      v3.meta_table "latest" = .ok "dr8_meta" ∧
      v3.meta_short_table "latest" = .ok none := by
  have hbase : v3._table_name_from_dr dr = .error .unknownRelease := by
    unfold v3._table_name_from_dr
    rw [if_pos h]
  refine ⟨hbase, ?_, ?_, ?_, by rfl, by rfl, by rfl, by rfl,
    by rfl, by rfl, by rfl⟩
  · unfold v3.observation_table
    exact hbase
  · unfold v3.meta_table
    rw [hbase]
  · unfold v3.meta_short_table
    rw [hbase]

theorem claim_C8_release_resolution_witness :
    v3._table_name_from_dr "dr1" = .error .unknownRelease ∧
      v3.meta_table "latest" = .ok "dr8_meta" :=
  ⟨(claim_C8_release_resolution "dr1" (by decide)).1,
    (claim_C8_release_resolution "dr1" (by decide)).2.2.2.2.2.2.2.2.2.1⟩


/-- C3: a region-query radius with `radius ≤ 0` or `radius > 60` arcseconds is
rejected with `InvalidQueryParameter` — by util's
`ra_dec_radius_from_request`, by the inline check of the standalone app.py
`circle_full_json`, and by the whole v3 circle endpoint before any backend
data is consulted (the rejection is the same for every database) — while
`radius = 60` exactly passes validation. -/
theorem claim_C3_radius_bounds (ra dec radius : ℚ) :
    (radius ≤ 0 ∨ radius > 60 →
      ra_dec_radius_from_request ra dec radius 60 = .error .invalidQueryParameter ∧
      circle_radius_check_v1 radius = .error .invalidQueryParameter ∧
      ∀ (h3 : H3Backend) (db : ChDb) (dr : String),
        v3.data_dr_circle_full_json h3 db dr ra dec radius =
          .error .invalidQueryParameter) ∧
    ra_dec_radius_from_request ra dec 60 60 = .ok (ra, dec, 60) := by
  constructor
  · intro hr
    have h1 : ra_dec_radius_from_request ra dec radius 60 =
        .error .invalidQueryParameter := by
      unfold ra_dec_radius_from_request
      rw [if_pos hr]
    refine ⟨h1, ?_, ?_⟩
    · unfold circle_radius_check_v1
      rw [if_pos hr]
    · intro h3 db dr
      unfold v3.data_dr_circle_full_json
      rw [show v3.MAX_RADIUS = 60 from rfl, h1]
  · unfold ra_dec_radius_from_request
    rw [if_neg (by norm_num)]

theorem claim_C3_radius_bounds_witness :
    ra_dec_radius_from_request 1 2 70 60 = .error .invalidQueryParameter ∧
      ra_dec_radius_from_request 1 2 60 60 = .ok (1, 2, 60) :=
  ⟨((claim_C3_radius_bounds 1 2 70).1 (by norm_num)).1,
    (claim_C3_radius_bounds 1 2 60).2⟩

theorem mapM_loop_eq {α β : Type} (f : α → Except ApiError β) (l : List α) :
    List.mapM.loop f l [] = l.mapM f := rfl

theorem mapM_oid_to_int_error :
    ∀ (l : List (List Char)), (∃ x ∈ l, pyInt x = none) →
      l.mapM oid_to_int = .error .invalidQueryParameter := by
  intro l
  induction l with
  | nil => rintro ⟨x, hx, _⟩; cases hx
  | cons x l ih =>
    rintro ⟨y, hy, hyn⟩
    rw [List.mapM_cons]
    show (oid_to_int x >>= fun b =>
        (List.cons b) <$> List.mapM.loop oid_to_int l []) =
      .error .invalidQueryParameter
    cases hx : pyInt x with
    | none =>
      have hxe : oid_to_int x = .error .invalidQueryParameter := by
        unfold oid_to_int; rw [hx]
      rw [hxe]
      rfl
    | some n =>
      have hxok : oid_to_int x = .ok n := by
        unfold oid_to_int; rw [hx]
      have hyl : y ∈ l := by
        rcases List.mem_cons.mp hy with h | h
        · subst h; rw [hx] at hyn; cases hyn
        · exact h
      rw [hxok]
      show (List.cons n) <$> List.mapM.loop oid_to_int l [] =
        .error .invalidQueryParameter
      rw [mapM_loop_eq, ih ⟨y, hyl, hyn⟩]
      rfl

/-- C9 counterexample: the string `"-1"` is not convertible to a non-negative
integer, yet `oid_to_int` accepts it (Python `int` accepts a sign), so the
claimed rejection does not happen. -/
theorem claim_C9_counterexample :
    oid_to_int ['-', '1'] = .ok (-1) ∧ (-1 : ℤ) < 0 := by
  constructor
  · rfl
  · norm_num

/-- C9 (amended): each supplied object identifier must be a string convertible
to an integer by Python `int` (an optional sign is permitted, so negative
identifiers are accepted); any identifier string whose conversion fails is
rejected with `InvalidQueryParameter`, and the v3 by-identifier endpoint then
fails identically for every database — no backend data enters the response. -/
theorem claim_C9_oid_parse_rejection (s : List Char) (h : pyInt s = none) :
    oid_to_int s = .error .invalidQueryParameter ∧
      ∀ (db : ChDb) (dr : String) (raw1 raw2 : List (List Char)),
        v3.data_dr_oid_full_json db dr (raw1 ++ s :: raw2) =
          .error .invalidQueryParameter := by
  constructor
  · unfold oid_to_int
    rw [h]
  · intro db dr raw1 raw2
    unfold v3.data_dr_oid_full_json oids_from_request
    rw [if_neg (by simp)]
    rw [mapM_oid_to_int_error _ ⟨s, by simp, h⟩]

theorem claim_C9_oid_parse_rejection_witness :
    oid_to_int ['x'] = .error .invalidQueryParameter :=
  (claim_C9_oid_parse_rejection ['x'] (by rfl)).1

/-- C2 (amended): for every by-region query the emitted candidate cell set is
the ring of radius `toUInt8(radius_deg / h3EdgeAngle(10)) + 1` — a truncated
(floored) quotient, not the ceiling the claim states — around the hex cell of
the (6-decimal rounded) query center at resolution 10, and a row is returned
iff its cell is in that candidate set and it passes, in the same query, the
exact predicate `greatCircleAngle(center, row) < radius` (with the center and
radius as rounded by the `:f` formatter) together with the quality filter. -/
theorem claim_C2_coarse_refine (h3 : H3Backend) (rows : List ObsRow)
    (ra dec radius_arcsec : ℚ) (r : ObsRow) :
    r ∈ v3.get_lcs_in_circle h3 rows ra dec radius_arcsec ↔
      r ∈ rows ∧
        r.h3index10 ∈ h3.h3kRing (h3.geoToH3 (round6 ra) (round6 dec) 10)
          (v3.ringRadius (round6 (radius_arcsec / 3600)) (h3.h3EdgeAngle 10)) ∧
        h3.greatCircleAngle (round6 ra) (round6 dec) r.ra r.dec <
          round6 (radius_arcsec / 3600) ∧
        r.catflags = 0 ∧ r.magerr > 0 := by
  unfold v3.get_lcs_in_circle
  rw [List.mem_insertionSort, List.mem_filter]
  simp [and_assoc]

/-- The concrete backend instance of the C2 counterexample: the center cell is
`0`, `h3kRing c k` enumerates `k + 1` cells starting at `c`, the published
edge angle at resolution 10 is `1/125` degrees and the query point is at
angular distance `0` from every row. -/
def h3ex : H3Backend :=
  { geoToH3 := fun _ _ _ => 0
    h3kRing := fun c k => (List.range (k + 1)).map (fun n => c + (n : ℤ))
    h3EdgeAngle := fun _ => 1 / 125
    greatCircleAngle := fun _ _ _ _ => 0 }

def rowEx : ObsRow :=
  { oid := 1, h3index10 := 3, mjd := 0, mag := 0, magerr := 1, clrcoeff := 0
    catflags := 0, ra := 0, dec := 0 }

/-- C2 counterexample: for the query `ra=0, dec=0, radius=36 arcsec` (so
`radius_deg / edge = 5/4`) the source selects the ring of radius
`trunc(5/4) + 1 = 2` while the claim demands `ceil(5/4) + 1 = 3`: the row in
cell `3` satisfies every other predicate and is returned by the claimed
(spec-worded) query but not by the source's. -/
theorem claim_C2_counterexample :
    v3.get_lcs_in_circle h3ex [rowEx] 0 0 36 = [] ∧
      v3.get_lcs_in_circle_spec h3ex [rowEx] 0 0 36 = [rowEx] ∧
      v3.ringRadius (round6 (36 / 3600)) (h3ex.h3EdgeAngle 10) = 2 ∧
      (⌈(36 : ℚ) / 3600 / h3ex.h3EdgeAngle 10⌉).toNat + 1 = 3 := by
  have hround : round6 ((36 : ℚ) / 3600) = 1 / 100 := by
    unfold round6
    norm_num
  have hfloor : (⌊(1 : ℚ) / 100 / (1 / 125)⌋ : ℤ) = 1 := by
    norm_num
  have hceil : (⌈(36 : ℚ) / 3600 / (1 / 125)⌉ : ℤ) = 2 := by
    rw [show (36 : ℚ) / 3600 / (1 / 125) = 5 / 4 by norm_num]
    rw [Int.ceil_eq_iff]
    norm_num
  refine ⟨?_, ?_, ?_, ?_⟩
  · unfold v3.get_lcs_in_circle v3.ringRadius
    simp only [h3ex, hround, hfloor]
    norm_num [List.range_succ, rowEx]
  · unfold v3.get_lcs_in_circle_spec
    simp only [h3ex, hceil]
    norm_num [List.range_succ, rowEx, List.insertionSort, List.orderedInsert]
  · unfold v3.ringRadius
    simp only [h3ex, hround, hfloor]
    rfl
  · simp only [h3ex, hceil]
    rfl

/-- The positional correspondence between an emitted predicate and a bound
parameter: each template's placeholder must be bound to the input value it was
generated from. -/
def templateMatches (circle : SCircle) (filters not_filters : List String)
    (fieldids not_fieldids : List ℤ) : WhereTemplate → SqlValue → Prop
  | .circle, v => v = .circle circle
  | .filterIn, v => v = .strings filters
  | .filterNotIn, v => v = .strings not_filters
  | .fieldidIn, v => v = .ints fieldids
  | .fieldidNotIn, v => v = .ints not_fieldids

/-- C7: in the analytic-backend predicate builder, each of the five predicates
is emitted iff its input is truthy (the circle, a dataclass, always is; each
optional list iff nonempty), placeholder indices are assigned `1, 2, 3, ...`
sequentially in the fixed source order, and the `k`-th emitted predicate
corresponds positionally to the `k`-th bound parameter. -/
theorem claim_C7_predicate_builder (c : SCircle) (fs nfs : List String)
    (fids nfids : List ℤ) :
    (circleWhere c fs nfs fids nfids).1.length =
        (circleWhere c fs nfs fids nfids).2.length ∧
      (circleWhere c fs nfs fids nfids).1.map (·.placeholder) =
        List.range' 1 (circleWhere c fs nfs fids nfids).1.length ∧
      (∀ pv ∈ (circleWhere c fs nfs fids nfids).1.zip
          (circleWhere c fs nfs fids nfids).2,
        templateMatches c fs nfs fids nfids pv.1.template pv.2) ∧
      (.circle ∈ (circleWhere c fs nfs fids nfids).1.map (·.template)) ∧
      ((.filterIn ∈ (circleWhere c fs nfs fids nfids).1.map (·.template)) ↔
        fs ≠ []) ∧
      ((.filterNotIn ∈ (circleWhere c fs nfs fids nfids).1.map (·.template)) ↔
        nfs ≠ []) ∧
      ((.fieldidIn ∈ (circleWhere c fs nfs fids nfids).1.map (·.template)) ↔
        fids ≠ []) ∧
      ((.fieldidNotIn ∈ (circleWhere c fs nfs fids nfids).1.map (·.template)) ↔
        nfids ≠ []) := by
  cases fs <;> cases nfs <;> cases fids <;> cases nfids <;>
    simp [circleWhere, whereItems, buildWhere, pyTruthy, templateMatches,
      List.range']

theorem contains_filter_ne (oids : List ℤ) (o y : ℤ) (hy : y ≠ o) :
    (oids.filter (fun x => decide (x ≠ o))).contains y = oids.contains y := by
  by_cases h : y ∈ oids
  · have h2 : y ∈ oids.filter (fun x => decide (x ≠ o)) :=
      List.mem_filter.mpr ⟨h, by simp [hy]⟩
    simp [h, h2, hy]
  · have h2 : y ∉ oids.filter (fun x => decide (x ≠ o)) :=
      fun hc => h (List.mem_filter.mp hc).1
    simp [h, h2]

theorem contains_filter_and (oids : List ℤ) (o y : ℤ) :
    (oids.filter (fun x => decide (x ≠ o))).contains y =
      (oids.contains y && decide (y ≠ o)) := by
  by_cases hy : y = o
  · have h2 : y ∉ oids.filter (fun x => decide (x ≠ o)) :=
      fun hc => by have h3 := (List.mem_filter.mp hc).2; simp [hy] at h3
    simp [h2, hy]
  · rw [contains_filter_ne oids o y hy]
    simp [hy]

theorem key_of_mem_pyInsert {β : Type} (d : List (ℤ × β)) (k : ℤ) (v : β)
    (p : ℤ × β) (hp : p ∈ pyInsert d k v) :
    p.1 ∈ d.map Prod.fst ∨ p.1 = k := by
  unfold pyInsert at hp
  by_cases h : d.any (fun q => q.1 = k)
  · rw [if_pos h] at hp
    rcases List.mem_map.mp hp with ⟨q, hq, hqe⟩
    by_cases hqk : q.1 = k
    · rw [if_pos hqk] at hqe
      left
      rw [← hqe]
      show q.1 ∈ List.map Prod.fst d
      exact List.mem_map_of_mem Prod.fst hq
    · rw [if_neg hqk] at hqe
      left
      rw [← hqe]
      exact List.mem_map_of_mem Prod.fst hq
  · rw [if_neg h] at hp
    rcases List.mem_append.mp hp with h2 | h2
    · left
      exact List.mem_map_of_mem Prod.fst h2
    · right
      rw [List.mem_singleton.mp h2]

theorem key_of_mem_foldl_pyInsert {β : Type} (key : β → ℤ) :
    ∀ (rows : List β) (acc : List (ℤ × β)) (p : ℤ × β),
      p ∈ rows.foldl (fun d r => pyInsert d (key r) r) acc →
      p.1 ∈ acc.map Prod.fst ∨ ∃ r ∈ rows, key r = p.1 := by
  intro rows
  induction rows with
  | nil =>
    intro acc p hp
    left
    exact List.mem_map_of_mem Prod.fst hp
  | cons r rest ih =>
    intro acc p hp
    rw [List.foldl_cons] at hp
    rcases ih (pyInsert acc (key r) r) p hp with h | ⟨r', hr', he⟩
    · rcases List.mem_map.mp h with ⟨q, hq, hqe⟩
      rcases key_of_mem_pyInsert acc (key r) r q hq with h2 | h2
      · left
        rw [← hqe]
        exact h2
      · right
        exact ⟨r, List.mem_cons_self r rest, by rw [← h2]; exact hqe⟩
    · right
      exact ⟨r', List.mem_cons_of_mem r hr', he⟩

theorem get_meta_for_oids_filter_ne (rows : List MetaRow) (oids : List ℤ)
    (o : ℤ) (hrows : ∀ r ∈ rows, r.oid ≠ o) :
    v3.get_meta_for_oids rows (oids.filter (fun x => decide (x ≠ o))) =
      v3.get_meta_for_oids rows oids := by
  unfold v3.get_meta_for_oids
  congr 1
  apply List.filter_congr
  intro r hr
  rw [contains_filter_ne oids o r.oid (hrows r hr)]

theorem get_meta_rows_filter_comm (rows : List MetaRow) (oids : List ℤ)
    (o : ℤ) :
    rows.filter (fun r =>
        (oids.filter (fun x => decide (x ≠ o))).contains r.oid
          && decide (r.ngoodobs > 0)) =
      (rows.filter (fun r =>
        oids.contains r.oid && decide (r.ngoodobs > 0))).filter
          (fun r => decide (r.oid ≠ o)) := by
  rw [List.filter_filter]
  apply List.filter_congr
  intro r _
  rw [contains_filter_and]
  cases h1 : oids.contains r.oid <;> cases h2 : decide (r.oid ≠ o) <;>
    cases h3 : decide (r.ngoodobs > 0) <;> rfl

theorem get_meta_for_oids_pyGet_filter (rows : List MetaRow) (oids : List ℤ)
    (o k : ℤ) (hk : k ≠ o) :
    pyGet (v3.get_meta_for_oids rows (oids.filter (fun x => decide (x ≠ o)))) k =
      pyGet (v3.get_meta_for_oids rows oids) k := by
  unfold v3.get_meta_for_oids
  rw [get_meta_rows_filter_comm rows oids o]
  exact pyGet_foldl_pyInsert_agree (fun r => r.oid) o
    (rows.filter (fun r => oids.contains r.oid && decide (r.ngoodobs > 0)))
    [] [] (fun _ _ => rfl) k hk

theorem pyGet_mapEntries {β γ : Type} (F : ℤ → β → Option γ) (e : ApiError) :
    ∀ (d : List (ℤ × β)) (out : List (ℤ × γ)),
      mapEntries (entryStep F e) d = .ok out →
      ∀ k, pyGet out k = (pyGet d k).bind (fun m => F k m) := by
  intro d
  induction d with
  | nil =>
    intro out h k
    have hout : ([] : List (ℤ × γ)) = out := (Except.ok.injEq _ _).mp h
    rw [← hout, pyGet_nil, pyGet_nil]
    rfl
  | cons p d ih =>
    intro out h k
    simp only [mapEntries, entryStep] at h
    cases hF : F p.1 p.2 with
    | none =>
      simp only [hF] at h
      exact absurd h (by simp)
    | some v =>
      simp only [hF] at h
      cases hrest : mapEntries (entryStep F e) d with
      | error e2 =>
        simp only [hrest] at h
        exact absurd h (by simp)
      | ok out' =>
        simp only [hrest] at h
        have hout : (p.1, v) :: out' = out := (Except.ok.injEq _ _).mp h
        rw [← hout]
        by_cases hk : p.1 = k
        · rw [pyGet_cons_pos ((p.1, v)) _ k hk, pyGet_cons_pos p _ k hk]
          rw [← hk]
          exact hF.symm
        · rw [pyGet_cons_neg ((p.1, v)) _ k hk, pyGet_cons_neg p _ k hk]
          exact ih out' hrest k

theorem mapEntries_congr {β γ : Type} (f g : β → Except ApiError γ) :
    ∀ (l : List β), (∀ p ∈ l, f p = g p) → mapEntries f l = mapEntries g l := by
  intro l
  induction l with
  | nil => intro _; rfl
  | cons x l ih =>
    intro h
    simp only [mapEntries]
    rw [h x (List.mem_cons_self x l),
      ih (fun p hp => h p (List.mem_cons_of_mem x hp))]

theorem pyGet_oidCore_ok (db : ChDb) (t : String) (oids : List ℤ)
    (data : List (ℤ × v3.Obj)) (h : v3.oidCore db t oids = .ok data) (o : ℤ) :
    pyGet data o =
      (pyGet (v3.get_meta_for_oids (db.meta (t ++ "_meta")) oids) o).bind
        (fun m => v3.oidEntry db t
          (if t ∈ v3.SHORT_META_DRS then
            v3.get_meta_for_oids (db.meta (t ++ "_meta_short")) oids
          else []) o m) := by
  simp only [v3.oidCore] at h
  exact pyGet_mapEntries
    (v3.oidEntry db t
      (if t ∈ v3.SHORT_META_DRS then
        v3.get_meta_for_oids (db.meta (t ++ "_meta_short")) oids
      else []))
    ApiError.keyError _ data h o

theorem v1_oidCore_foldl_filter_ne (pdb : v1.PgDb) (o : ℤ)
    (hm : v1.get_meta_for_oid pdb o = none) :
    ∀ (oids : List ℤ) (acc : List (ℤ × v1.ObjV1)),
      (oids.filter (fun x => decide (x ≠ o))).foldl (v1.oidStep pdb) acc =
        oids.foldl (v1.oidStep pdb) acc := by
  intro oids
  induction oids with
  | nil => intro acc; rfl
  | cons x rest ih =>
    intro acc
    rw [List.filter_cons]
    by_cases hx : x = o
    · rw [if_neg (by simp [hx]), List.foldl_cons]
      have hstep : v1.oidStep pdb acc x = acc := by
        unfold v1.oidStep
        rw [hx, hm]
      rw [ih acc, hstep]
    · rw [if_pos (by simp [hx]), List.foldl_cons, List.foldl_cons, ih]

theorem v1_oidCore_foldl_pyGet_none (pdb : v1.PgDb) (o : ℤ)
    (hmeta : ∀ r ∈ pdb.metaRows, r.oid ≠ o) :
    ∀ (oids : List ℤ) (acc : List (ℤ × v1.ObjV1)), pyGet acc o = none →
      pyGet (oids.foldl (v1.oidStep pdb) acc) o = none := by
  intro oids
  induction oids with
  | nil => intro acc hacc; exact hacc
  | cons x rest ih =>
    intro acc hacc
    rw [List.foldl_cons]
    apply ih
    unfold v1.oidStep
    cases hg : v1.get_meta_for_oid pdb x with
    | none => exact hacc
    | some meta =>
      have hmem := List.mem_of_find?_eq_some hg
      have hoid : meta.oid = x := by
        have := List.find?_some hg
        simpa using this
      have hxo : ¬ o = x := by
        have := hmeta meta hmem
        omega
      rw [pyGet_pyInsert, if_neg hxo]
      exact hacc

/-- C6: for every by-identifier request, an identifier with no matching
summary row in the backend is silently omitted from the response mapping:
whenever the assembly loop succeeds its key is absent from the output, the
whole response equals the response to the same request without that
identifier (siblings are unaffected, and in particular removing the missing
identifier changes neither a successful mapping nor a raised fault), and the
handler adds no failure of its own — it returns exactly the assembled result
whenever parsing and release resolution succeed.  Both the v3 handler
(`data_dr_oid_full_json`) and the v1 Postgres handler (`oid_full_json`)
satisfy this. -/
theorem claim_C6_missing_summary_omitted (db : ChDb) (t : String) (o : ℤ)
    (oids : List ℤ) (hmeta : ∀ r ∈ db.meta (t ++ "_meta"), r.oid ≠ o) :
    (∀ data, v3.oidCore db t oids = .ok data → pyGet data o = none) ∧
      v3.oidCore db t oids =
        v3.oidCore db t (oids.filter (fun x => decide (x ≠ o))) ∧
      (∀ (dr : String) (rawOids : List (List Char)) (oids' : List ℤ),
        oids_from_request rawOids = .ok oids' →
        v3._table_name_from_dr dr = .ok t →
        v3.data_dr_oid_full_json db dr rawOids = v3.oidCore db t oids') ∧
      ∀ (pdb : v1.PgDb), (∀ r ∈ pdb.metaRows, r.oid ≠ o) →
        pyGet (v1.oidCore pdb oids) o = none ∧
        v1.oidCore pdb oids =
          v1.oidCore pdb (oids.filter (fun x => decide (x ≠ o))) ∧
        ∀ (rawOids : List (List Char)) (oids' : List ℤ),
          oids_from_request rawOids = .ok oids' →
          v1.oid_full_json pdb rawOids = .ok (v1.oidCore pdb oids') := by
  have hkeysub : ∀ r ∈ (db.meta (t ++ "_meta")).filter
      (fun r => oids.contains r.oid && decide (r.ngoodobs > 0)), r.oid ≠ o :=
    fun r hr => hmeta r (List.mem_filter.mp hr).1
  refine ⟨?_, ?_, ?_, ?_⟩
  · intro data hdata
    rw [pyGet_oidCore_ok db t oids data hdata o]
    have hnone : pyGet (v3.get_meta_for_oids (db.meta (t ++ "_meta")) oids) o =
        none := by
      unfold v3.get_meta_for_oids
      exact pyGet_foldl_pyInsert_none (fun r : MetaRow => r.oid) o _ [] hkeysub rfl
    rw [hnone]
    rfl
  · simp only [v3.oidCore]
    rw [get_meta_for_oids_filter_ne (db.meta (t ++ "_meta")) oids o hmeta]
    by_cases hshort : t ∈ v3.SHORT_META_DRS
    · rw [if_pos hshort, if_pos hshort]
      apply mapEntries_congr
      intro p hp
      have hpkey : p.1 ≠ o := by
        rcases key_of_mem_foldl_pyInsert (fun r : MetaRow => r.oid)
          ((db.meta (t ++ "_meta")).filter
            (fun r => oids.contains r.oid && decide (r.ngoodobs > 0)))
          [] p hp with h | ⟨r, hr, he⟩
        · simp at h
        · rw [← he]
          exact hkeysub r hr
      have hms := get_meta_for_oids_pyGet_filter
        (db.meta (t ++ "_meta_short")) oids o p.1 hpkey
      unfold entryStep v3.oidEntry
      rw [hms]
    · rw [if_neg hshort, if_neg hshort]
  · intro dr rawOids oids' h1 h2
    simp only [v3.data_dr_oid_full_json, h1, h2]
  · intro pdb hv1
    have hm : v1.get_meta_for_oid pdb o = none := by
      unfold v1.get_meta_for_oid
      exact List.find?_eq_none.mpr (fun r hr => by simp [hv1 r hr])
    refine ⟨?_, ?_, ?_⟩
    · exact v1_oidCore_foldl_pyGet_none pdb o hv1 oids [] rfl
    · unfold v1.oidCore
      rw [v1_oidCore_foldl_filter_ne pdb o hm oids []]
    · intro rawOids oids' h1
      simp only [v1.oid_full_json, h1]

def metaRow7 : MetaRow :=
  { oid := 7, nobs := 4, ngoodobs := 3, durgood := 10, filter := 1, fieldid := 1
    rcid := 2, ra := 0, dec := 0, h3index10 := 5 }

def dbC6 : ChDb :=
  { obs := fun _ => []
    meta := fun s => if s = "dr8_meta" then [metaRow7] else [] }

theorem claim_C6_missing_summary_omitted_witness :
    ∃ data, v3.oidCore dbC6 "dr8" [7, 9] = .ok data ∧ pyGet data 9 = none :=
  ⟨_, rfl,
    (claim_C6_missing_summary_omitted dbC6 "dr8" 9 [7, 9]
      (by
        intro r hr
        have h : dbC6.meta ("dr8" ++ "_meta") = [metaRow7] := rfl
        rw [h] at hr
        rw [List.mem_singleton.mp hr]
        decide)).1 _ rfl⟩

theorem get_meta_for_oids_nil (rows : List MetaRow) :
    v3.get_meta_for_oids rows [] = [] := by
  unfold v3.get_meta_for_oids
  rw [List.filter_congr (fun r _ => by simp : ∀ r ∈ rows,
    (([] : List ℤ).contains r.oid && decide (r.ngoodobs > 0)) = false)]
  rw [List.filter_false]
  rfl

/-- C1: after a by-region fetch, a v3 response is produced only when the
identifier set derived from the fetched observations equals, as a set, the
key set of the summary batch-fetch for those identifiers; when observations
were fetched and the two sets differ in any way the whole request fails with
the `InternalInconsistency` server fault and no partial mapping is returned. -/
theorem claim_C1_consistency_guard (h3 : H3Backend) (db : ChDb) (dr : String)
    (ra dec radius : ℚ) (t : String)
    (ht : v3._table_name_from_dr dr = .ok t) :
    (∀ data, v3.data_dr_circle_full_json h3 db dr ra dec radius = .ok data →
      eqAsSet ((v3.get_lcs_in_circle h3 (db.obs t) ra dec radius).map (·.oid)).dedup
        ((v3.get_meta_for_oids (db.meta (t ++ "_meta"))
          ((v3.get_lcs_in_circle h3 (db.obs t) ra dec radius).map (·.oid)).dedup).map
          (·.1)) = true) ∧
    (0 < radius → radius ≤ 60 →
      (v3.get_lcs_in_circle h3 (db.obs t) ra dec radius).isEmpty = false →
      eqAsSet ((v3.get_lcs_in_circle h3 (db.obs t) ra dec radius).map (·.oid)).dedup
        ((v3.get_meta_for_oids (db.meta (t ++ "_meta"))
          ((v3.get_lcs_in_circle h3 (db.obs t) ra dec radius).map (·.oid)).dedup).map
          (·.1)) = false →
      v3.data_dr_circle_full_json h3 db dr ra dec radius =
        .error .internalInconsistency) := by
  constructor
  · intro data hd
    by_cases hval : radius ≤ 0 ∨ radius > 60
    · simp only [v3.data_dr_circle_full_json, ra_dec_radius_from_request,
        v3.MAX_RADIUS, if_pos hval] at hd
      cases hd
    · simp only [v3.data_dr_circle_full_json, ra_dec_radius_from_request,
        v3.MAX_RADIUS, if_neg hval, v3.observation_table, ht] at hd
      simp only [v3.circleCore] at hd
      by_cases hemp :
          (v3.get_lcs_in_circle h3 (db.obs t) ra dec radius).isEmpty
      · have hnil : v3.get_lcs_in_circle h3 (db.obs t) ra dec radius = [] :=
          List.isEmpty_iff.mp hemp
        rw [hnil]
        rw [show (([] : List ObsRow).map (·.oid)).dedup = ([] : List ℤ) from rfl]
        rw [get_meta_for_oids_nil]
        rfl
      · rw [if_neg (by simp [hemp])] at hd
        by_cases hg : eqAsSet
            ((v3.get_lcs_in_circle h3 (db.obs t) ra dec radius).map (·.oid)).dedup
            ((v3.get_meta_for_oids (db.meta (t ++ "_meta"))
              ((v3.get_lcs_in_circle h3 (db.obs t) ra dec radius).map
                (·.oid)).dedup).map (·.1)) = true
        · exact hg
        · rw [if_pos (by simp [hg])] at hd
          cases hd
  · intro h0 h60 hemp hset
    have hval : ¬ (radius ≤ 0 ∨ radius > 60) := by
      rintro (h | h) <;> linarith
    simp only [v3.data_dr_circle_full_json, ra_dec_radius_from_request,
      v3.MAX_RADIUS, if_neg hval, v3.observation_table, ht]
    simp only [v3.circleCore]
    rw [if_neg (by simp [hemp])]
    rw [if_pos (by simp [hset])]

def h3C1 : H3Backend :=
  { geoToH3 := fun _ _ _ => 0
    h3kRing := fun c _ => [c]
    h3EdgeAngle := fun _ => 1
    greatCircleAngle := fun _ _ _ _ => 0 }

def rowC1 : ObsRow :=
  { oid := 1, h3index10 := 0, mjd := 0, mag := 0, magerr := 1, clrcoeff := 0
    catflags := 0, ra := 0, dec := 0 }

def dbC1 : ChDb :=
  { obs := fun s => if s = "dr8" then [rowC1] else []
    meta := fun _ => [] }

theorem claim_C1_consistency_guard_witness :
    v3.data_dr_circle_full_json h3C1 dbC1 "dr8" 0 0 36 =
      .error .internalInconsistency := by
  have hlcs : v3.get_lcs_in_circle h3C1 (dbC1.obs "dr8") 0 0 36 = [rowC1] := by
    unfold v3.get_lcs_in_circle v3.ringRadius
    have hobs : dbC1.obs "dr8" = [rowC1] := rfl
    rw [hobs]
    norm_num [h3C1, rowC1, round6, List.insertionSort]
  apply (claim_C1_consistency_guard h3C1 dbC1 "dr8" 0 0 36 "dr8" rfl).2
  · norm_num
  · norm_num
  · rw [hlcs]
    rfl
  · rw [hlcs]
    rw [show v3.get_meta_for_oids (dbC1.meta ("dr8" ++ "_meta"))
      (([rowC1].map (·.oid)).dedup) = [] from rfl]
    rfl

def oidC5 : ℤ := 830202400008402

def metaC5 : MetaRow :=
  { oid := oidC5, nobs := 3, ngoodobs := 3, durgood := 1, filter := 1
    fieldid := 1, rcid := 1, ra := 0, dec := 0, h3index10 := 5 }

def obsC5a : ObsRow :=
  { oid := oidC5, h3index10 := 5, mjd := 58200.1, mag := 17, magerr := 1
    clrcoeff := 0, catflags := 0, ra := 0, dec := 0 }

def obsC5b : ObsRow := { obsC5a with mjd := 58200.3 }

def obsC5c : ObsRow := { obsC5a with mjd := 58199.9 }

def cDbC5 : ChDb :=
  { obs := fun s => if s = "dr8" then [obsC5a, obsC5b, obsC5c] else []
    meta := fun s => if s = "dr8_meta" then [metaC5] else [] }

/-- C5: the observation sequence attached to an object is ordered by
non-decreasing modified Julian date: (i) in every successfully assembled v3
by-identifier response; (ii) in every v3 by-region response, where the
per-object ordering is preserved while grouping the `(h3index10, oid,
mjd)`-ordered rows, provided each object's rows carry one cell index (an
invariant of the data: an object has one sky position); and (iii) concretely,
the by-identifier request for `{830202400008402}` against a release with one
matching summary row and three observation rows at MJDs
`[58200.1, 58200.3, 58199.9]` succeeds and returns exactly one object whose
observation sequence carries the MJDs `[58199.9, 58200.1, 58200.3]`. -/
theorem claim_C5_epoch_ordering :
    (∀ (db : ChDb) (t : String) (oids : List ℤ) (data : List (ℤ × v3.Obj))
      (o : ℤ) (obj : v3.Obj),
      v3.oidCore db t oids = .ok data →
      pyGet data o = some obj →
      obj.lc.Pairwise (fun a b => a.mjd ≤ b.mjd)) ∧
    (∀ (h3 : H3Backend) (db : ChDb) (t : String) (ra dec radius : ℚ)
      (data : List (ℤ × v3.Obj)) (o : ℤ) (obj : v3.Obj),
      (∀ a ∈ db.obs t, ∀ b ∈ db.obs t, a.oid = b.oid →
        a.h3index10 = b.h3index10) →
      v3.circleCore h3 db t ra dec radius = .ok data →
      pyGet data o = some obj →
      obj.lc.Pairwise (fun a b => a.mjd ≤ b.mjd)) ∧
    (v3.data_dr_oid_full_json cDbC5 "dr8"
        [['8', '3', '0', '2', '0', '2', '4', '0', '0', '0', '0', '8', '4', '0', '2']] =
      v3.oidCore cDbC5 "dr8" [oidC5] ∧
     ∃ data, v3.oidCore cDbC5 "dr8" [oidC5] = .ok data ∧
       (pyGet data oidC5).map (fun obj => obj.lc.map (·.mjd)) =
         some [(58199.9 : ℚ), 58200.1, 58200.3]) := by
  refine ⟨?_, ?_, ?_, ?_⟩
  · intro db t oids data o obj hdata h
    rw [pyGet_oidCore_ok db t oids data hdata o] at h
    cases hm : pyGet (v3.get_meta_for_oids (db.meta (t ++ "_meta")) oids) o with
    | none =>
      rw [hm] at h
      exact absurd h (by simp)
    | some m =>
      rw [hm] at h
      simp only [Option.some_bind] at h
      unfold v3.oidEntry at h
      obtain ⟨fm, hpm, hobj⟩ := Option.map_eq_some'.mp h
      subst hobj
      simp only [List.pairwise_map]
      have hs : List.Pairwise v3.mjdLe
          (v3.get_lc_for_oid_h3index10 (db.obs t) o m.h3index10) := by
        unfold v3.get_lc_for_oid_h3index10
        exact List.sorted_insertionSort v3.mjdLe _
      exact hs.imp (fun hab => hab)
  · intro h3 db t ra dec radius data o obj hU hok hget
    simp only [v3.circleCore] at hok
    by_cases hemp : (v3.get_lcs_in_circle h3 (db.obs t) ra dec radius).isEmpty
    · rw [if_pos hemp] at hok
      cases hok
      rw [pyGet_nil] at hget
      cases hget
    · rw [if_neg (by simp [hemp])] at hok
      by_cases hg : eqAsSet
          ((v3.get_lcs_in_circle h3 (db.obs t) ra dec radius).map (·.oid)).dedup
          ((v3.get_meta_for_oids (db.meta (t ++ "_meta"))
            ((v3.get_lcs_in_circle h3 (db.obs t) ra dec radius).map
              (·.oid)).dedup).map (·.1)) = true
      · rw [if_neg (by simp [hg])] at hok
        rw [v3.pyGet_foldlE_addObs _ _ _ _ hok o] at hget
        simp only [pyGet_nil] at hget
        by_cases hfe : ((v3.get_lcs_in_circle h3 (db.obs t) ra dec
            radius).filter (fun r => r.oid = o)).isEmpty
        · rw [if_pos hfe] at hget
          cases hget
        · rw [if_neg hfe] at hget
          obtain ⟨mo, hmo, hobj⟩ := Option.map_eq_some'.mp hget
          subst hobj
          simp only [List.pairwise_map]
          have hslex : List.Pairwise v3.obsLex
              (v3.get_lcs_in_circle h3 (db.obs t) ra dec radius) := by
            unfold v3.get_lcs_in_circle
            exact List.sorted_insertionSort v3.obsLex _
          have hUlcs : ∀ a ∈ v3.get_lcs_in_circle h3 (db.obs t) ra dec radius,
              ∀ b ∈ v3.get_lcs_in_circle h3 (db.obs t) ra dec radius,
              a.oid = b.oid → a.h3index10 = b.h3index10 := by
            intro a ha b hb hab
            unfold v3.get_lcs_in_circle at ha hb
            rw [List.mem_insertionSort, List.mem_filter] at ha hb
            exact hU a ha.1 b hb.1 hab
          have := v3.pairwise_mjd_of_filter_oid
            (v3.get_lcs_in_circle h3 (db.obs t) ra dec radius) o hslex hUlcs
          exact this.imp (fun hab => hab)
      · rw [if_pos (by simp [hg])] at hok
        cases hok
  · simp only [v3.data_dr_oid_full_json]
    rw [show oids_from_request
      [['8', '3', '0', '2', '0', '2', '4', '0', '0', '0', '0', '8', '4', '0', '2']] =
        .ok [oidC5] from rfl]
    rw [show v3._table_name_from_dr "dr8" = .ok "dr8" from rfl]
  · obtain ⟨data, hdata⟩ : ∃ data, v3.oidCore cDbC5 "dr8" [oidC5] = .ok data :=
      ⟨_, rfl⟩
    refine ⟨data, hdata, ?_⟩
    rw [pyGet_oidCore_ok cDbC5 "dr8" [oidC5] data hdata oidC5]
    rw [show pyGet (v3.get_meta_for_oids (cDbC5.meta ("dr8" ++ "_meta"))
      [oidC5]) oidC5 = some metaC5 from rfl]
    simp only [Option.some_bind]
    unfold v3.oidEntry v3.get_lc_for_oid_h3index10
    rw [show cDbC5.obs "dr8" = [obsC5a, obsC5b, obsC5c] from rfl]
    rw [show metaC5.h3index10 = 5 from rfl]
    norm_num [obsC5a, obsC5b, obsC5c, oidC5, metaC5, v3.prepare_meta,
      v3.FILTERS, v3.SHORT_META_DRS, pyGet, List.insertionSort,
      List.orderedInsert, v3.mjdLe, projLc, Option.map_some']

theorem claim_C5_epoch_ordering_witness :
    ∃ (data : List (ℤ × v3.Obj)) (obj : v3.Obj),
      v3.oidCore cDbC5 "dr8" [oidC5] = .ok data ∧
      pyGet data oidC5 = some obj ∧
      obj.lc.Pairwise (fun a b => a.mjd ≤ b.mjd) := by
  obtain ⟨data, hdata, hmap⟩ := claim_C5_epoch_ordering.2.2.2
  cases hm : pyGet data oidC5 with
  | none =>
    rw [hm] at hmap
    cases hmap
  | some obj =>
    exact ⟨data, obj, hdata, hm,
      claim_C5_epoch_ordering.1 cDbC5 "dr8" [oidC5] data oidC5 obj hdata hm⟩

theorem pyGet_foldl_pyInsert_mem {α β : Type} (key : β → ℤ) (V : β → α) :
    ∀ (rows : List β) (acc : List (ℤ × α)) (o : ℤ) (v : α),
      pyGet (rows.foldl (fun d m => pyInsert d (key m) (V m)) acc) o = some v →
      pyGet acc o = some v ∨ ∃ m ∈ rows, V m = v := by
  intro rows
  induction rows with
  | nil =>
    intro acc o v h
    left
    exact h
  | cons m rest ih =>
    intro acc o v h
    rw [List.foldl_cons] at h
    rcases ih _ o v h with h2 | ⟨m', hm', he⟩
    · rw [pyGet_pyInsert] at h2
      by_cases ho : o = key m
      · rw [if_pos ho] at h2
        right
        exact ⟨m, List.mem_cons_self m rest, (Option.some.injEq _ _).mp h2⟩
      · rw [if_neg ho] at h2
        left
        exact h2
    · right
      exact ⟨m', List.mem_cons_of_mem m hm', he⟩

/-- C10: every observation in any response passes the quality filter of the
observation queries: in both v3 shapes (by-identifier and by-region, on any
successfully assembled response) every returned light-curve element is the
projection of a stored row with `catflags = 0` and `magerr > 0`; in v2 every
returned element (which still carries `catflags`) has `catflags = 0` and
comes from a stored row with `catflags = 0` (v2 has no `magerr`
condition). -/
theorem claim_C10_quality_filter :
    (∀ (db : ChDb) (t : String) (oids : List ℤ) (data : List (ℤ × v3.Obj))
      (o : ℤ) (obj : v3.Obj),
      v3.oidCore db t oids = .ok data →
      pyGet data o = some obj →
      ∀ x ∈ obj.lc, ∃ r ∈ db.obs t,
        projLc r = x ∧ r.catflags = 0 ∧ r.magerr > 0) ∧
    (∀ (h3 : H3Backend) (db : ChDb) (t : String) (ra dec radius : ℚ)
      (data : List (ℤ × v3.Obj)) (o : ℤ) (obj : v3.Obj),
      v3.circleCore h3 db t ra dec radius = .ok data →
      pyGet data o = some obj →
      ∀ x ∈ obj.lc, ∃ r ∈ db.obs t,
        projLc r = x ∧ r.catflags = 0 ∧ r.magerr > 0) ∧
    (∀ (obsRows : List ObsRow) (metaRows : List MetaRow)
      (rawOids : List (List Char)) (data : List (ℤ × v2.ObjV2)) (o : ℤ)
      (obj : v2.ObjV2),
      v2.oid_full_json obsRows metaRows rawOids = .ok data →
      pyGet data o = some obj →
      ∀ x ∈ obj.lc, x.catflags = 0 ∧
        ∃ r ∈ obsRows, v2.projLcV2 r = x ∧ r.catflags = 0) := by
  refine ⟨?_, ?_, ?_⟩
  · intro db t oids data o obj hdata h x hx
    rw [pyGet_oidCore_ok db t oids data hdata o] at h
    cases hm : pyGet (v3.get_meta_for_oids (db.meta (t ++ "_meta")) oids) o with
    | none =>
      rw [hm] at h
      exact absurd h (by simp)
    | some m =>
      rw [hm] at h
      simp only [Option.some_bind] at h
      unfold v3.oidEntry at h
      obtain ⟨fm, hpm, hobj⟩ := Option.map_eq_some'.mp h
      rw [← hobj] at hx
      have hx2 : x ∈ List.map projLc
          (v3.get_lc_for_oid_h3index10 (db.obs t) o m.h3index10) := hx
      rcases List.mem_map.mp hx2 with ⟨r, hr, hre⟩
      unfold v3.get_lc_for_oid_h3index10 at hr
      rw [List.mem_insertionSort, List.mem_filter] at hr
      have hc := hr.2
      simp only [Bool.and_eq_true, decide_eq_true_eq] at hc
      exact ⟨r, hr.1, hre, hc.1.2, hc.2⟩
  · intro h3 db t ra dec radius data o obj hok hget x hx
    simp only [v3.circleCore] at hok
    by_cases hemp : (v3.get_lcs_in_circle h3 (db.obs t) ra dec radius).isEmpty
    · rw [if_pos hemp] at hok
      cases hok
      rw [pyGet_nil] at hget
      cases hget
    · rw [if_neg (by simp [hemp])] at hok
      by_cases hg : eqAsSet
          ((v3.get_lcs_in_circle h3 (db.obs t) ra dec radius).map (·.oid)).dedup
          ((v3.get_meta_for_oids (db.meta (t ++ "_meta"))
            ((v3.get_lcs_in_circle h3 (db.obs t) ra dec radius).map
              (·.oid)).dedup).map (·.1)) = true
      · rw [if_neg (by simp [hg])] at hok
        rw [v3.pyGet_foldlE_addObs _ _ _ _ hok o] at hget
        simp only [pyGet_nil] at hget
        by_cases hfe : ((v3.get_lcs_in_circle h3 (db.obs t) ra dec
            radius).filter (fun r => r.oid = o)).isEmpty
        · rw [if_pos hfe] at hget
          cases hget
        · rw [if_neg hfe] at hget
          obtain ⟨mo, hmo, hobj⟩ := Option.map_eq_some'.mp hget
          rw [← hobj] at hx
          have hx2 : x ∈ List.map projLc
              ((v3.get_lcs_in_circle h3 (db.obs t) ra dec radius).filter
                (fun r => r.oid = o)) := hx
          rcases List.mem_map.mp hx2 with ⟨r, hr, hre⟩
          have hrl : r ∈ v3.get_lcs_in_circle h3 (db.obs t) ra dec radius :=
            (List.filter_sublist _).subset hr
          unfold v3.get_lcs_in_circle at hrl
          rw [List.mem_insertionSort, List.mem_filter] at hrl
          have hc := hrl.2
          simp only [Bool.and_eq_true, decide_eq_true_eq] at hc
          exact ⟨r, hrl.1, hre, hc.1.2, hc.2⟩
      · rw [if_pos (by simp [hg])] at hok
        cases hok
  · intro obsRows metaRows rawOids data o obj hok hget x hx
    simp only [v2.oid_full_json] at hok
    by_cases hre : rawOids.isEmpty
    · rw [if_pos hre] at hok
      cases hok
    · rw [if_neg hre] at hok
      cases hm : rawOids.mapM oid_to_int with
      | error e => rw [hm] at hok; cases hok
      | ok oids =>
        rw [hm] at hok
        have hdata := (Except.ok.injEq _ _).mp hok
        rw [← hdata] at hget
        rcases pyGet_foldl_pyInsert_mem (fun m2 : MetaRow => m2.oid)
          (fun m2 => v2.ObjV2.mk m2.nobs
            ((v2.get_lc_for_oid_h3index10 obsRows m2.oid
              m2.h3index10).map v2.projLcV2)) _ [] o obj hget
          with h2 | ⟨meta, _, he⟩
        · cases h2
        · rw [← he] at hx
          rcases List.mem_map.mp hx with ⟨r, hr, hre2⟩
          unfold v2.get_lc_for_oid_h3index10 at hr
          rw [List.mem_insertionSort, List.mem_filter] at hr
          have hc := hr.2
          simp only [Bool.and_eq_true, decide_eq_true_eq] at hc
          refine ⟨?_, r, hr.1, hre2, hc.2⟩
          rw [← hre2]
          unfold v2.projLcV2
          exact hc.2

theorem claim_C10_quality_filter_witness :
    ∃ (data : List (ℤ × v3.Obj)) (obj : v3.Obj),
      v3.oidCore cDbC5 "dr8" [oidC5] = .ok data ∧
      pyGet data oidC5 = some obj ∧
      ∀ x ∈ obj.lc, ∃ r ∈ cDbC5.obs "dr8",
        projLc r = x ∧ r.catflags = 0 ∧ r.magerr > 0 := by
  obtain ⟨data, hdata⟩ : ∃ data, v3.oidCore cDbC5 "dr8" [oidC5] = .ok data :=
    ⟨_, rfl⟩
  obtain ⟨obj, hobj⟩ : ∃ obj, pyGet data oidC5 = some obj := by
    rw [pyGet_oidCore_ok cDbC5 "dr8" [oidC5] data hdata oidC5]
    rw [show pyGet (v3.get_meta_for_oids (cDbC5.meta ("dr8" ++ "_meta"))
      [oidC5]) oidC5 = some metaC5 from rfl]
    exact ⟨_, rfl⟩
  exact ⟨data, obj, hdata, hobj,
    claim_C10_quality_filter.1 cDbC5 "dr8" [oidC5] data oidC5 obj hdata hobj⟩

theorem claim_C7_predicate_builder_witness :
    templateMatches ⟨⟨1, 2⟩, 3⟩ ["zr"] [] [5] [] WhereTemplate.filterIn
      (.strings ["zr"]) ∧
      (WhereTemplate.fieldidIn ∈
        (circleWhere ⟨⟨1, 2⟩, 3⟩ ["zr"] [] [5] []).1.map (·.template)) :=
  ⟨(claim_C7_predicate_builder ⟨⟨1, 2⟩, 3⟩ ["zr"] [] [5] []).2.2.1
      (⟨WhereTemplate.filterIn, 2⟩, SqlValue.strings ["zr"]) (by decide),
    ((claim_C7_predicate_builder ⟨⟨1, 2⟩, 3⟩ ["zr"] [] [5] []).2.2.2.2.2.2.1).mpr
      (by simp)⟩
